import Mathlib

/-!
Shallow embedding of the odds-analysis and staking core of the `mma-ev-tool`
repository (files `backend/ev_calculator.py` and `backend/kelly_calculator.py`),
together with theorems settling the specification's claims about it.

Conventions of the embedding:
* Python `float` arithmetic is modelled with exact rationals (`ℚ`).
* Python `int(x)` on a float is truncation toward zero (`truncQ`).
* Python `round(x, k)` is modelled by `pyRound k` (round-half-up at `k`
  decimal places; CPython uses round-half-to-even, which differs only on
  exact ties, none of which occur in the statements below).
* SQLite rows of the `placed_bets` table are modelled by the `PlacedBet`
  record; the table itself by a `List PlacedBet`; timestamps are opaque
  strings supplied by the caller (the code passes `datetime.now().isoformat()`).
* Where the Python code can raise `ZeroDivisionError`, the embedding either
  returns `Except` (for `settle_bet`) or is restricted by a nonzero-odds
  hypothesis in the theorems (ℚ-division by zero yields 0 in Lean).
-/

/-- Truncation toward zero of a rational, the behaviour of Python `int(x)`
applied to the float value of `x`. -/
def truncQ (q : ℚ) : ℤ := if q < 0 then -⌊-q⌋ else ⌊q⌋

/-- Python `round(x, k)` modelled over ℚ (round half up at `k` decimals). -/
def pyRound (k : ℕ) (q : ℚ) : ℚ := (round (q * 10 ^ k) : ℚ) / 10 ^ k

/-- Insert `x` into a list assumed sorted for `le`, after any run of equal
elements, as a stable sort does. -/
def insSorted {α : Type} (le : α → α → Bool) (x : α) : List α → List α
  | [] => [x]
  | y :: t => if le x y then x :: y :: t else y :: insSorted le x t

/-- Stable insertion sort; models Python `sorted`/`list.sort`, which is a
stable sort, for the total preorders used in the source. -/
def stableSort {α : Type} (le : α → α → Bool) : List α → List α
  | [] => []
  | x :: t => insSorted le x (stableSort le t)

theorem perm_insSorted {α : Type} (le : α → α → Bool) (x : α) (l : List α) :
    List.Perm (insSorted le x l) (x :: l) := by
  induction l with
  | nil => simp [insSorted]
  | cons y t ih =>
    simp only [insSorted]
    split
    · exact List.Perm.refl _
    · exact (ih.cons y).trans (List.Perm.swap x y t)

theorem perm_stableSort {α : Type} (le : α → α → Bool) (l : List α) :
    List.Perm (stableSort le l) l := by
  induction l with
  | nil => exact List.Perm.refl _
  | cons x t ih => exact (perm_insSorted le x (stableSort le t)).trans (ih.cons x)

theorem mem_stableSort {α : Type} (le : α → α → Bool) (l : List α) (a : α) :
    a ∈ stableSort le l ↔ a ∈ l :=
  (perm_stableSort le l).mem_iff

/-- Result record of both `calculate_kelly_size` implementations
(`KellyResult` dataclass, duplicated verbatim in `ev_calculator.py` and
`kelly_calculator.py`). -/
structure KellyResult where
  recommended_percentage : ℚ
  recommended_dollars : ℚ
  unit_size : ℚ
  risk_level : String
  kelly_category : String
  deriving DecidableEq

/-- The per-instance state both `KellyCalculator.__init__` methods set up:
bankroll, standard unit, and the two hard-coded stake-percentage safety
bounds.  The bounds are hard-coded constants in the source; treating them as
fields lets the two implementations be compared under a common configuration. -/
structure KellyConfig where
  bankroll : ℚ
  standard_unit : ℚ
  max_bet_percentage : ℚ
  min_bet_percentage : ℚ
  deriving DecidableEq

namespace EvCalc

/-- `KellyCalculator.__init__` defaults in `ev_calculator.py`: bankroll 1000,
unit 10, `max_bet_percentage = 10.0`, `min_bet_percentage = 0.1`. -/
def defaultKellyConfig : KellyConfig :=
  { bankroll := 1000, standard_unit := 10,
    max_bet_percentage := 10, min_bet_percentage := 0.1 }

/-- `KellyCalculator.calculate_kelly_size` from `ev_calculator.py`
(lines 40–106).  `ev_percentage` is accepted but, as in the source, never
used in the computation.  At `american_odds = 0` the source raises
`ZeroDivisionError` (`100 / abs(0)`); here ℚ-division yields `b = 0`, a case
the theorems exclude via nonzero-odds hypotheses. -/
def calculate_kelly_size (cfg : KellyConfig) (ev_percentage : ℚ)
    (sharp_probability : ℚ) (american_odds : ℤ) : KellyResult :=
  let payout_multiplier : ℚ :=
    if american_odds > 0 then (american_odds : ℚ) / 100
    else 100 / |(american_odds : ℚ)|
  let b := payout_multiplier
  let p := sharp_probability / 100
  let q := 1 - p
  let full_kelly : ℚ := if b ≤ 0 then 0 else (b * p - q) / b
  let half_kelly := full_kelly * 0.5
  let kelly_percentage := half_kelly * 100
  let out : ℚ × String × String :=
    if kelly_percentage < cfg.min_bet_percentage then
      (0, "SKIP", "❌ TOO SMALL")
    else if kelly_percentage > cfg.max_bet_percentage then
      (cfg.max_bet_percentage, "CAPPED", "⚠️ CAPPED")
    else if kelly_percentage ≥ 3 then (kelly_percentage, "HIGH", "🔥 LARGE")
    else if kelly_percentage ≥ 2 then (kelly_percentage, "MEDIUM", "💪 MEDIUM")
    else if kelly_percentage ≥ 1 then (kelly_percentage, "LOW", "📊 SMALL")
    else (kelly_percentage, "MINIMAL", "🤏 TINY")
  let recommended_dollars := (out.1 / 100) * cfg.bankroll
  let unit_size := recommended_dollars / cfg.standard_unit
  { recommended_percentage := pyRound 2 out.1,
    recommended_dollars := pyRound 2 recommended_dollars,
    unit_size := pyRound 2 unit_size,
    risk_level := out.2.1,
    kelly_category := out.2.2 }

end EvCalc

namespace KellyMod

/-- `KellyCalculator.__init__` defaults in `kelly_calculator.py`: bankroll
1000, unit 10, `max_bet_percentage = 5.0`, `min_bet_percentage = 0.5`. -/
def defaultKellyConfig : KellyConfig :=
  { bankroll := 1000, standard_unit := 10,
    max_bet_percentage := 5, min_bet_percentage := 0.5 }

/-- `KellyCalculator.calculate_kelly_size` from `kelly_calculator.py`
(lines 47–113), an independent copy of the function in `ev_calculator.py`;
see the remarks on that definition. -/
def calculate_kelly_size (cfg : KellyConfig) (ev_percentage : ℚ)
    (sharp_probability : ℚ) (american_odds : ℤ) : KellyResult :=
  let payout_multiplier : ℚ :=
    if american_odds > 0 then (american_odds : ℚ) / 100
    else 100 / |(american_odds : ℚ)|
  let b := payout_multiplier
  let p := sharp_probability / 100
  let q := 1 - p
  let full_kelly : ℚ := if b ≤ 0 then 0 else (b * p - q) / b
  let half_kelly := full_kelly * 0.5
  let kelly_percentage := half_kelly * 100
  let out : ℚ × String × String :=
    if kelly_percentage < cfg.min_bet_percentage then
      (0, "SKIP", "❌ TOO SMALL")
    else if kelly_percentage > cfg.max_bet_percentage then
      (cfg.max_bet_percentage, "CAPPED", "⚠️ CAPPED")
    else if kelly_percentage ≥ 3 then (kelly_percentage, "HIGH", "🔥 LARGE")
    else if kelly_percentage ≥ 2 then (kelly_percentage, "MEDIUM", "💪 MEDIUM")
    else if kelly_percentage ≥ 1 then (kelly_percentage, "LOW", "📊 SMALL")
    else (kelly_percentage, "MINIMAL", "🤏 TINY")
  let recommended_dollars := (out.1 / 100) * cfg.bankroll
  let unit_size := recommended_dollars / cfg.standard_unit
  { recommended_percentage := pyRound 2 out.1,
    recommended_dollars := pyRound 2 recommended_dollars,
    unit_size := pyRound 2 unit_size,
    risk_level := out.2.1,
    kelly_category := out.2.2 }

end KellyMod

namespace EvCalc

/-- One row of scraped odds (`FighterOdds` dataclass from `scraper.py`, as
consumed by `ev_calculator.py`): a fighter name, a book name and signed
American odds. -/
structure FighterOdds where
  fighter_name : String
  book : String
  odds : ℤ
  deriving DecidableEq

/-- A fight (`Fight` dataclass from `scraper.py`): two fighter names, event
metadata, and the scraped odds rows. -/
structure Fight where
  fighter1 : String
  fighter2 : String
  event_name : String
  event_date : String
  weight_class : String
  odds_data : List FighterOdds
  deriving DecidableEq

/-- `EVResult` dataclass from `ev_calculator.py`. -/
structure EVResult where
  fighter : String
  book : String
  ev_percentage : ℚ
  confidence_score : ℚ
  sharp_consensus_prob : ℚ
  square_prob : ℚ
  recommendation : String
  fight_info : String
  kelly_size : ℚ
  kelly_dollars : ℚ
  kelly_units : ℚ
  kelly_category : String
  deriving DecidableEq

/-- `EVCalculator.__init__`: the sharp-book list. -/
def sharp_books : List String := ["Pinnacle", "BetOnline", "Circa Sports"]

/-- `EVCalculator.__init__`: the square-book list. -/
def square_books : List String := ["DraftKings", "Bet365", "FanDuel"]

/-- The keys of the `ev_thresholds` dict in `EVCalculator.__init__`; the
dict has exactly these three keys, and looking up any other string raises
`KeyError`, so the key space is modelled as an inductive type. -/
inductive Threshold where
  | conservative
  | moderate
  | aggressive
  deriving DecidableEq

/-- The `ev_thresholds` dict values: conservative 2.0, moderate 1.0,
aggressive 0.5. -/
def ev_thresholds : Threshold → ℚ
  | .conservative => 2
  | .moderate => 1
  | .aggressive => 0.5

/-- `EVCalculator.odds_to_implied_prob` (lines 124–129).  Note the source
has no zero-odds guard: `american_odds = 0` falls into the negative branch
and returns `-0 / (-0 + 100) = 0.0` without raising. -/
def odds_to_implied_prob (american_odds : ℤ) : ℚ :=
  if american_odds > 0 then 100 / ((american_odds : ℚ) + 100)
  else (-(american_odds : ℚ)) / (-(american_odds : ℚ) + 100)

/-- `EVCalculator.remove_vig` (lines 131–146): proportional vig removal,
with a pass-through branch when the implied probabilities total at most 1. -/
def remove_vig (fighter1_odds fighter2_odds : ℤ) : ℚ × ℚ :=
  let prob1 := odds_to_implied_prob fighter1_odds
  let prob2 := odds_to_implied_prob fighter2_odds
  let total_prob := prob1 + prob2
  if total_prob ≤ 1 then (prob1, prob2)
  else (prob1 / total_prob, prob2 / total_prob)

/-- Ordered-dict update with Python semantics: overwrite in place when the
key exists, append otherwise. -/
def setKey {β : Type} (l : List (String × β)) (k : String) (v : β) :
    List (String × β) :=
  match l with
  | [] => [(k, v)]
  | (k', v') :: t => if k' = k then (k, v) :: t else (k', v') :: setKey t k v

/-- Ordered-dict lookup. -/
def getKey {β : Type} (l : List (String × β)) (k : String) : Option β :=
  (l.find? (fun p => p.1 == k)).map (fun p => p.2)

/-- One iteration of the first loop of `get_book_odds_for_fight`: file the
row's odds under `book_odds[odds.book][odds.fighter_name]`. -/
def insertOdds (acc : List (String × List (String × ℤ))) (fo : FighterOdds) :
    List (String × List (String × ℤ)) :=
  setKey acc fo.book (setKey ((getKey acc fo.book).getD []) fo.fighter_name fo.odds)

/-- `EVCalculator.get_book_odds_for_fight` (lines 148–166): group the odds
rows by book, then keep only the books quoting both fighters, as pairs
`(book, (fighter1 odds, fighter2 odds))`. -/
def get_book_odds_for_fight (fight : Fight) : List (String × ℤ × ℤ) :=
  let book_odds := fight.odds_data.foldl insertOdds []
  book_odds.filterMap (fun p =>
    match getKey p.2 fight.fighter1, getKey p.2 fight.fighter2 with
    | some o1, some o2 => some (p.1, o1, o2)
    | _, _ => none)

/-- `EVCalculator.calculate_sharp_consensus` (lines 168–191): collect the
sharp books' odds for each fighter, return `none` when there are none,
otherwise truncate-average each side's odds and vig-remove the averages. -/
def calculate_sharp_consensus (book_odds : List (String × ℤ × ℤ)) :
    Option (ℚ × ℚ) :=
  let sharp := book_odds.filter (fun e => decide (e.1 ∈ sharp_books))
  let sharp_f1_odds : List ℤ := sharp.map (fun e => e.2.1)
  let sharp_f2_odds : List ℤ := sharp.map (fun e => e.2.2)
  if sharp_f1_odds = [] then none
  else
    let avg_sharp_f1 := truncQ ((sharp_f1_odds.sum : ℚ) / (sharp_f1_odds.length : ℚ))
    let avg_sharp_f2 := truncQ ((sharp_f2_odds.sum : ℚ) / (sharp_f2_odds.length : ℚ))
    some (remove_vig avg_sharp_f1 avg_sharp_f2)

/-- `EVCalculator.calculate_confidence_score` (lines 284–302). -/
def calculate_confidence_score (ev_percentage : ℚ) (sharp_books_count : ℕ) : ℚ :=
  let score : ℚ := min (ev_percentage * 15) 50 + min ((sharp_books_count : ℚ) * 10) 30
  let score := score +
    (if ev_percentage ≥ 3 then (20 : ℚ)
     else if ev_percentage ≥ 2 then 15
     else if ev_percentage ≥ 1.5 then 10
     else 0)
  min score 100

/-- `EVCalculator.get_recommendation` (lines 304–313). -/
def get_recommendation (ev_percentage confidence_score : ℚ) : String :=
  if confidence_score ≥ 80 ∧ ev_percentage ≥ 2.5 then "🔥 STRONG BET"
  else if confidence_score ≥ 60 ∧ ev_percentage ≥ 1.5 then "✅ GOOD BET"
  else if ev_percentage ≥ 1 then "📊 DECENT BET"
  else "⚠️ SMALL EDGE"

/-- The `EVResult` record `calculate_fight_evs` appends for one opportunity:
`fighterName` at `book`, edge `evPct`, consensus probability `sharpProb`,
book probability `squareProb`, `nSharp` sharp books, odds `odds`. -/
def mkEVResult (fight : Fight) (fighterName book : String)
    (evPct sharpProb squareProb : ℚ) (nSharp : ℕ) (odds : ℤ) : EVResult :=
  let confidence := calculate_confidence_score evPct nSharp
  let kelly := calculate_kelly_size defaultKellyConfig evPct (sharpProb * 100) odds
  { fighter := fighterName,
    book := book,
    ev_percentage := pyRound 2 evPct,
    confidence_score := pyRound 1 confidence,
    sharp_consensus_prob := pyRound 1 (sharpProb * 100),
    square_prob := pyRound 1 (squareProb * 100),
    recommendation := get_recommendation evPct confidence,
    fight_info := fight.fighter1 ++ " vs " ++ fight.fighter2,
    kelly_size := kelly.recommended_percentage,
    kelly_dollars := kelly.recommended_dollars,
    kelly_units := kelly.unit_size,
    kelly_category := kelly.kelly_category }

/-- The opportunity `calculate_fight_evs` emits for fighter 1 at a square
book quoting `(o1, o2)`, given consensus probability `p1` for fighter 1. -/
def emitFighter1 (fight : Fight) (book : String) (o1 o2 : ℤ) (p1 : ℚ)
    (nSharp : ℕ) : EVResult :=
  let sq := remove_vig o1 o2
  mkEVResult fight fight.fighter1 book ((p1 - sq.1) * 100) p1 sq.1 nSharp o1

/-- The opportunity `calculate_fight_evs` emits for fighter 2 at a square
book quoting `(o1, o2)`, given consensus probability `p2` for fighter 2. -/
def emitFighter2 (fight : Fight) (book : String) (o1 o2 : ℤ) (p2 : ℚ)
    (nSharp : ℕ) : EVResult :=
  let sq := remove_vig o1 o2
  mkEVResult fight fight.fighter2 book ((p2 - sq.2) * 100) p2 sq.2 nSharp o2

/-- Comparison used by the source's `sorted(..., key=lambda x:
x.ev_percentage, reverse=True)`: descending edge, stable on ties. -/
def evLe (a b : EVResult) : Bool := decide (b.ev_percentage ≤ a.ev_percentage)

/-- `EVCalculator.calculate_fight_evs` (lines 193–282): bail out with no
opportunities when fewer than two books quote both fighters or when the
sharp consensus is `None`; otherwise, for each square book, emit an
opportunity per fighter whose edge over that book meets the threshold, and
return the list sorted by edge descending. -/
def calculate_fight_evs (fight : Fight) (threshold : Threshold) : List EVResult :=
  let book_odds := get_book_odds_for_fight fight
  if book_odds.length < 2 then []
  else
    match calculate_sharp_consensus book_odds with
    | none => []
    | some (sharp_prob1, sharp_prob2) =>
      let nSharp := (book_odds.filter (fun e => decide (e.1 ∈ sharp_books))).length
      let results := book_odds.flatMap (fun e =>
        if e.1 ∈ square_books then
          (if (sharp_prob1 - (remove_vig e.2.1 e.2.2).1) * 100 ≥ ev_thresholds threshold
           then [emitFighter1 fight e.1 e.2.1 e.2.2 sharp_prob1 nSharp] else []) ++
          (if (sharp_prob2 - (remove_vig e.2.1 e.2.2).2) * 100 ≥ ev_thresholds threshold
           then [emitFighter2 fight e.1 e.2.1 e.2.2 sharp_prob2 nSharp] else [])
        else [])
      stableSort evLe results

/-- `EVCalculator.analyze_all_fights` (lines 315–326): analyse every fight
— the call `self.calculate_fight_evs(fight)` passes no threshold, so the
default `threshold='moderate'` applies — concatenate, and sort by edge
descending. -/
def analyze_all_fights (fights : List Fight) : List EVResult :=
  let all_evs := fights.flatMap (fun fight => calculate_fight_evs fight Threshold.moderate)
  stableSort evLe all_evs

end EvCalc

namespace KellyMod

/-- A row of the `placed_bets` SQLite table (`PlacedBet` dataclass /
`CREATE TABLE` schema in `kelly_calculator.py`); timestamps are opaque
strings. -/
structure PlacedBet where
  id : ℤ
  fighter : String
  opponent : String
  book : String
  odds : ℤ
  bet_amount : ℚ
  unit_size : ℚ
  ev_percentage : ℚ
  confidence_score : ℚ
  kelly_recommended : ℚ
  placed_date : String
  fight_date : String
  status : String
  result_amount : Option ℚ
  settled_date : Option String
  deriving DecidableEq

/-- The one exception `BetTracker.settle_bet` can raise: `ZeroDivisionError`
from `100 / abs(odds)` when a found bet with `odds = 0` is settled as won. -/
inductive SettleError where
  | zeroDivision
  deriving DecidableEq

/-- `SELECT * FROM placed_bets WHERE id = ?` followed by `fetchone()`:
the first row with the given id, if any. -/
def lookupBet (ledger : List PlacedBet) (bet_id : ℤ) : Option PlacedBet :=
  ledger.find? (fun b => b.id == bet_id)

/-- `BetTracker.settle_bet` (lines 177–216).  The ledger is the list of
rows; `now` is the `datetime.now().isoformat()` timestamp.  When the id is
unknown the source prints a message and returns, leaving the table
untouched (`Except.ok ledger`); it never raises a not-found error.  When a
row is found — the source does NOT check its `status` — the stake and odds
are read back and `status`, `result_amount` and `settled_date` are
unconditionally rewritten by the `UPDATE`. -/
def settle_bet (ledger : List PlacedBet) (bet_id : ℤ) (won : Bool)
    (now : String) : Except SettleError (List PlacedBet) :=
  match lookupBet ledger bet_id with
  | none => Except.ok ledger
  | some bet =>
    if won ∧ bet.odds = 0 then Except.error SettleError.zeroDivision
    else
      let result_amount : ℚ :=
        if won then
          let payout :=
            if bet.odds > 0 then bet.bet_amount * ((bet.odds : ℚ) / 100)
            else bet.bet_amount * (100 / |(bet.odds : ℚ)|)
          bet.bet_amount + payout
        else 0
      let status := if won then "won" else "lost"
      Except.ok (ledger.map (fun b =>
        if b.id = bet_id then
          { b with status := status,
                   result_amount := some result_amount,
                   settled_date := some now }
        else b))

theorem lookupBet_map (ledger : List PlacedBet) (bet_id : ℤ)
    (g : PlacedBet → PlacedBet) (hg : ∀ b, (g b).id = b.id) :
    lookupBet (ledger.map g) bet_id = (lookupBet ledger bet_id).map g := by
  induction ledger with
  | nil => rfl
  | cons b t ih =>
    simp only [List.map_cons, lookupBet, List.find?] at *
    rw [hg b]
    cases h : (b.id == bet_id) with
    | true => simp
    | false => simpa using ih

theorem find?_beq_id (ledger : List PlacedBet) (bet_id : ℤ) (bet : PlacedBet)
    (h : lookupBet ledger bet_id = some bet) : bet.id = bet_id := by
  have := List.find?_some h
  simpa using this

end KellyMod

/-- A generic pending ledger row used to instantiate the ledger theorems. -/
def pendingBet (id odds : ℤ) (amt : ℚ) : KellyMod.PlacedBet :=
  { id := id, fighter := "Jon Jones", opponent := "Tom Aspinall",
    book := "DraftKings", odds := odds, bet_amount := amt, unit_size := 1,
    ev_percentage := 2.2, confidence_score := 68.1, kelly_recommended := 1,
    placed_date := "2024-11-01", fight_date := "2024-11-16",
    status := "pending", result_amount := none, settled_date := none }

/-- A ledger row that has already been settled as won, with settlement
amount 125 and settlement timestamp "T1". -/
def settledWonBet : KellyMod.PlacedBet :=
  { pendingBet 1 150 50 with
    status := "won", result_amount := some 125, settled_date := some "T1" }

namespace KellyMod

/-- C1: the claim is refuted by the code: `settle_bet` performs no status
check whatsoever, so settling a bet whose record is already `won` (with a
previously written settlement amount of 125 and timestamp "T1") neither
fails nor is a no-op — it silently recomputes and overwrites the settlement
amount (125 → 0), the status (`won` → `lost`) and the settlement timestamp
("T1" → "T2"). -/
theorem C1_second_settle_overwrites :
    settledWonBet.status = "won" ∧
    settledWonBet.result_amount = some 125 ∧
    settledWonBet.settled_date = some "T1" ∧
    settle_bet [settledWonBet] 1 false "T2" =
      Except.ok [{ settledWonBet with
        status := "lost", result_amount := some 0, settled_date := some "T2" }] ∧
    (some ("T2" : String) ≠ some "T1") ∧ (some (0 : ℚ) ≠ some (125 : ℚ)) := by
  refine ⟨rfl, rfl, rfl, ?_, by simp, by norm_num⟩
  simp [settle_bet, lookupBet, settledWonBet, pendingBet]

/-- C2: settling a found pending bet with `won = true` writes
`result_amount = stake + stake * payoutMultiplier(odds)` (odds/100 for
positive odds, 100/|odds| for negative), and with `won = false` writes
`result_amount = 0`; both also set the status and the settlement
timestamp. -/
theorem C2_settlement_arithmetic (ledger : List PlacedBet) (bet_id : ℤ)
    (now : String) (bet : PlacedBet)
    (hfind : lookupBet ledger bet_id = some bet)
    (hpend : bet.status = "pending") (ho : bet.odds ≠ 0) :
    (∃ l, settle_bet ledger bet_id true now = Except.ok l ∧
       lookupBet l bet_id = some { bet with
         status := "won",
         result_amount := some (bet.bet_amount + bet.bet_amount *
           (if bet.odds > 0 then (bet.odds : ℚ) / 100 else 100 / |(bet.odds : ℚ)|)),
         settled_date := some now }) ∧
    (∃ l, settle_bet ledger bet_id false now = Except.ok l ∧
       lookupBet l bet_id = some { bet with
         status := "lost", result_amount := some 0, settled_date := some now }) := by
  have hid : bet.id = bet_id := find?_beq_id ledger bet_id bet hfind
  constructor
  · have hw : settle_bet ledger bet_id true now =
        Except.ok (ledger.map (fun b => if b.id = bet_id then
          { b with status := "won",
                   result_amount := some (bet.bet_amount +
                     (if bet.odds > 0 then bet.bet_amount * ((bet.odds : ℚ) / 100)
                      else bet.bet_amount * (100 / |(bet.odds : ℚ)|))),
                   settled_date := some now } else b)) := by
      rw [settle_bet, hfind]
      simp [ho]
    refine ⟨_, hw, ?_⟩
    rw [lookupBet_map ledger bet_id _ (fun b => by split <;> rfl), hfind]
    by_cases hpos : bet.odds > 0 <;> simp [hid, hpos]
  · have hw : settle_bet ledger bet_id false now =
        Except.ok (ledger.map (fun b => if b.id = bet_id then
          { b with status := "lost", result_amount := some 0,
                   settled_date := some now } else b)) := by
      rw [settle_bet, hfind]
      simp
    refine ⟨_, hw, ?_⟩
    rw [lookupBet_map ledger bet_id _ (fun b => by split <;> rfl), hfind]
    simp [hid]

/-- C2 witness: stake 50 at +150 settles won to 125; stake 50 at −200
settles won to 75; a loss settles to 0. -/
theorem C2_settlement_arithmetic_witness :
    (∃ l, settle_bet [pendingBet 1 150 50] 1 true "T" = Except.ok l ∧
       lookupBet l 1 = some { pendingBet 1 150 50 with
         status := "won", result_amount := some 125, settled_date := some "T" }) ∧
    (∃ l, settle_bet [pendingBet 2 (-200) 50] 2 true "T" = Except.ok l ∧
       lookupBet l 2 = some { pendingBet 2 (-200) 50 with
         status := "won", result_amount := some 75, settled_date := some "T" }) ∧
    (∃ l, settle_bet [pendingBet 1 150 50] 1 false "T" = Except.ok l ∧
       lookupBet l 1 = some { pendingBet 1 150 50 with
         status := "lost", result_amount := some 0, settled_date := some "T" }) := by
  have h150 := C2_settlement_arithmetic [pendingBet 1 150 50] 1 "T" (pendingBet 1 150 50)
    (by simp [lookupBet, pendingBet]) rfl (by norm_num [pendingBet])
  have h200 := C2_settlement_arithmetic [pendingBet 2 (-200) 50] 2 "T" (pendingBet 2 (-200) 50)
    (by simp [lookupBet, pendingBet]) rfl (by norm_num [pendingBet])
  obtain ⟨⟨l1, hl1, hk1⟩, ⟨l3, hl3, hk3⟩⟩ := h150
  obtain ⟨⟨l2, hl2, hk2⟩, -⟩ := h200
  refine ⟨⟨l1, hl1, ?_⟩, ⟨l2, hl2, ?_⟩, ⟨l3, hl3, hk3⟩⟩
  · rw [hk1]; norm_num [pendingBet]
  · rw [hk2]; norm_num [pendingBet]

/-- C8: the claim's error behaviour is refuted: on an unknown bet id
`settle_bet` does not raise any error — it prints a message and returns
normally with the ledger unchanged (`NotFoundError` does not exist anywhere
in the code). -/
theorem C8_counterexample :
    settle_bet [pendingBet 1 150 50] 2 true "T" = Except.ok [pendingBet 1 150 50] ∧
    settle_bet [pendingBet 1 150 50] 2 true "T" ≠
      Except.error SettleError.zeroDivision := by
  constructor <;> simp [settle_bet, lookupBet, pendingBet]

/-- C8 (amended): for every bet id not present in the ledger, `settle_bet`
returns normally without raising and without any retry, and the ledger
state is unchanged by the call. -/
theorem C8_unknown_id_unchanged (ledger : List PlacedBet) (bet_id : ℤ)
    (won : Bool) (now : String) (h : lookupBet ledger bet_id = none) :
    settle_bet ledger bet_id won now = Except.ok ledger := by
  rw [settle_bet, h]

/-- C8 witness: settling id 7 on a one-row ledger that only holds id 1
leaves the ledger unchanged. -/
theorem C8_unknown_id_unchanged_witness :
    settle_bet [pendingBet 1 150 50] 7 false "T" = Except.ok [pendingBet 1 150 50] :=
  C8_unknown_id_unchanged [pendingBet 1 150 50] 7 false "T"
    (by simp [lookupBet, pendingBet])

end KellyMod

namespace EvCalc

/-- C3: for every pair of nonzero American odds, when the implied
probabilities total more than 1 `remove_vig` returns probabilities summing
to exactly 1 (hence within 1e-9), and when the total is at most 1 it
returns the two implied probabilities unchanged (deliberate pass-through,
whose sum may be below 1). -/
theorem C3_remove_vig_normalizes (o1 o2 : ℤ) (h1 : o1 ≠ 0) (h2 : o2 ≠ 0) :
    (1 < odds_to_implied_prob o1 + odds_to_implied_prob o2 →
       (remove_vig o1 o2).1 + (remove_vig o1 o2).2 = 1 ∧
       |(remove_vig o1 o2).1 + (remove_vig o1 o2).2 - 1| ≤ 1 / 1000000000) ∧
    (odds_to_implied_prob o1 + odds_to_implied_prob o2 ≤ 1 →
       remove_vig o1 o2 = (odds_to_implied_prob o1, odds_to_implied_prob o2)) := by
  constructor
  · intro h
    have htot : odds_to_implied_prob o1 + odds_to_implied_prob o2 ≠ 0 := by
      intro h0
      rw [h0] at h
      norm_num at h
    have hsum : (remove_vig o1 o2).1 + (remove_vig o1 o2).2 = 1 := by
      rw [remove_vig]
      simp only [not_le.2 h, if_neg, ite_false, not_le]
      rw [div_add_div_same, div_self htot]
    exact ⟨hsum, by rw [hsum]; norm_num⟩
  · intro h
    rw [remove_vig]
    simp only [if_pos h]

/-- C3 witness: at odds (−150, +130) the implied probabilities total more
than 1 and the de-vigged probabilities sum to exactly 1; at odds
(+120, +105) the total is below 1 and the pair passes through unchanged. -/
theorem C3_remove_vig_normalizes_witness :
    (remove_vig (-150) 130).1 + (remove_vig (-150) 130).2 = 1 ∧
    remove_vig 120 105 = (odds_to_implied_prob 120, odds_to_implied_prob 105) := by
  constructor
  · exact ((C3_remove_vig_normalizes (-150) 130 (by norm_num) (by norm_num)).1
      (by norm_num [odds_to_implied_prob])).1
  · exact (C3_remove_vig_normalizes 120 105 (by norm_num) (by norm_num)).2
      (by norm_num [odds_to_implied_prob])

/-- C4: the claim is refuted at odds 0: `odds_to_implied_prob 0` does not
fail (no `InvalidOddsError` exists in the code) — the negative-odds branch
computes `-0 / (-0 + 100)` and returns 0, a value outside (0,1). -/
theorem C4_counterexample :
    odds_to_implied_prob 0 = 0 ∧ ¬ (0 < odds_to_implied_prob 0) := by
  norm_num [odds_to_implied_prob]

/-- C4 (amended): `odds_to_implied_prob` never raises: at odds 0 it returns
0 (the zero-odds failure claimed in the spec does not exist in the code);
for every nonzero odds it returns 100/(o+100) for positive o and
−o/(−o+100) for negative o, a value strictly between 0 and 1. -/
theorem C4_implied_prob_range (o : ℤ) (h : o ≠ 0) :
    0 < odds_to_implied_prob o ∧ odds_to_implied_prob o < 1 ∧
    (0 < o → odds_to_implied_prob o = 100 / ((o : ℚ) + 100)) ∧
    (o < 0 → odds_to_implied_prob o = (-(o : ℚ)) / (-(o : ℚ) + 100)) ∧
    odds_to_implied_prob 0 = 0 := by
  rcases h.lt_or_lt with hneg | hpos
  · have h1 : (1 : ℚ) ≤ -(o : ℚ) := by
      have ho1 : o ≤ -1 := by omega
      have hq : (o : ℚ) ≤ -1 := by exact_mod_cast ho1
      linarith
    have hval : odds_to_implied_prob o = (-(o : ℚ)) / (-(o : ℚ) + 100) := by
      rw [odds_to_implied_prob, if_neg (by exact_mod_cast not_lt.2 hneg.le)]
    refine ⟨?_, ?_, fun hc => absurd hc (not_lt.2 hneg.le), fun _ => hval, by
      norm_num [odds_to_implied_prob]⟩
    · rw [hval]
      positivity
    · rw [hval, div_lt_one (by linarith)]
      linarith
  · have h1 : (1 : ℚ) ≤ (o : ℚ) := by exact_mod_cast hpos
    have hval : odds_to_implied_prob o = 100 / ((o : ℚ) + 100) := by
      rw [odds_to_implied_prob, if_pos (by exact_mod_cast hpos)]
    refine ⟨?_, ?_, fun _ => hval, fun hc => absurd hc (not_lt.2 hpos.le), by
      norm_num [odds_to_implied_prob]⟩
    · rw [hval]
      positivity
    · rw [hval, div_lt_one (by linarith)]
      linarith

/-- C4 witness: odds −150 are nonzero, the implied probability is 3/5 = 0.6
and lies in (0,1); odds +150 give 2/5 = 0.4. -/
theorem C4_implied_prob_range_witness :
    ((-150 : ℤ) ≠ 0) ∧ 0 < odds_to_implied_prob (-150) ∧
    odds_to_implied_prob (-150) < 1 ∧ odds_to_implied_prob (-150) = 3 / 5 ∧
    odds_to_implied_prob 150 = 2 / 5 :=
  ⟨by norm_num, (C4_implied_prob_range (-150) (by norm_num)).1,
   (C4_implied_prob_range (-150) (by norm_num)).2.1,
   by norm_num [odds_to_implied_prob], by norm_num [odds_to_implied_prob]⟩

end EvCalc

/-- C9: the two `calculate_kelly_size` implementations (`ev_calculator.py`
and `kelly_calculator.py`) agree on every input once their hard-coded
min/max stake bounds are treated as configuration and equalized, and their
default configurations differ exactly in those bounds (10%/0.1% versus
5%/0.5%) while agreeing on bankroll and unit size. -/
theorem C9_kelly_implementations_equivalent :
    (∀ (cfg : KellyConfig) (ev p : ℚ) (o : ℤ),
       EvCalc.calculate_kelly_size cfg ev p o = KellyMod.calculate_kelly_size cfg ev p o) ∧
    EvCalc.defaultKellyConfig.max_bet_percentage = 10 ∧
    EvCalc.defaultKellyConfig.min_bet_percentage = 0.1 ∧
    KellyMod.defaultKellyConfig.max_bet_percentage = 5 ∧
    KellyMod.defaultKellyConfig.min_bet_percentage = 0.5 ∧
    EvCalc.defaultKellyConfig.bankroll = KellyMod.defaultKellyConfig.bankroll ∧
    EvCalc.defaultKellyConfig.standard_unit = KellyMod.defaultKellyConfig.standard_unit :=
  ⟨fun _ _ _ _ => rfl, rfl, rfl, rfl, rfl, rfl, rfl⟩

namespace KellyMod

/-- C5: the claim's boundary example is refuted: at probability 57.5% and
odds −135 the full Kelly fraction is (b·0.575 − 0.425)/b with b = 100/135,
which is 1/800 = 0.125% (not ≈ 11.96%), so half-Kelly is 0.0625% of
bankroll — below the module's 0.5% floor — and the output is a skip with
stake 0, not a cap at the 5% ceiling. -/
theorem C5_counterexample :
    (calculate_kelly_size defaultKellyConfig 2.2 57.5 (-135)).risk_level = "SKIP" ∧
    (calculate_kelly_size defaultKellyConfig 2.2 57.5 (-135)).recommended_percentage = 0 ∧
    (calculate_kelly_size defaultKellyConfig 2.2 57.5 (-135)).risk_level ≠ "CAPPED" := by
  have h1 : (calculate_kelly_size defaultKellyConfig 2.2 57.5 (-135)).risk_level = "SKIP" := by
    norm_num [calculate_kelly_size, defaultKellyConfig, pyRound]
  refine ⟨h1, by norm_num [calculate_kelly_size, defaultKellyConfig, pyRound], ?_⟩
  rw [h1]
  simp

/-- C5 (amended): writing kp for the half-Kelly percentage of bankroll
computed from the probability and the odds, `calculate_kelly_size` returns
stake exactly 0 with tier "SKIP" when kp is below the configured minimum
floor; clamps to the configured ceiling with tier "CAPPED" when kp exceeds
the configured maximum; and otherwise passes kp through unclamped,
classified into the ordered bands ≥3 / ≥2 / ≥1 / below 1.  (The spec's
numeric example is wrong: probability 57.5% at odds −135 gives
half-Kelly = 0.0625%, below the 0.5% floor, hence stake 0 with tier
"SKIP" — see the counterexample.) -/
theorem C5_kelly_safety_bounds (cfg : KellyConfig) (ev p : ℚ) (o : ℤ)
    (ho : o ≠ 0) (kp : ℚ)
    (hkp : kp = (let b : ℚ := if o > 0 then (o : ℚ) / 100 else 100 / |(o : ℚ)|;
                 (if b ≤ 0 then 0 else (b * (p / 100) - (1 - p / 100)) / b) * 0.5 * 100)) :
    (kp < cfg.min_bet_percentage →
       (calculate_kelly_size cfg ev p o).recommended_percentage = 0 ∧
       (calculate_kelly_size cfg ev p o).risk_level = "SKIP") ∧
    (cfg.min_bet_percentage ≤ kp → cfg.max_bet_percentage < kp →
       (calculate_kelly_size cfg ev p o).recommended_percentage =
         pyRound 2 cfg.max_bet_percentage ∧
       (calculate_kelly_size cfg ev p o).risk_level = "CAPPED") ∧
    (cfg.min_bet_percentage ≤ kp → kp ≤ cfg.max_bet_percentage →
       (calculate_kelly_size cfg ev p o).recommended_percentage = pyRound 2 kp ∧
       ((3 ≤ kp → (calculate_kelly_size cfg ev p o).risk_level = "HIGH") ∧
        (2 ≤ kp → kp < 3 → (calculate_kelly_size cfg ev p o).risk_level = "MEDIUM") ∧
        (1 ≤ kp → kp < 2 → (calculate_kelly_size cfg ev p o).risk_level = "LOW") ∧
        (kp < 1 → (calculate_kelly_size cfg ev p o).risk_level = "MINIMAL"))) := by
  subst hkp
  simp only [calculate_kelly_size]
  refine ⟨fun hmin => ?_, fun hmin hmax => ?_, fun hmin hmax => ?_⟩
  · rw [if_pos hmin]
    exact ⟨by norm_num [pyRound], rfl⟩
  · rw [if_neg (not_lt.2 hmin), if_pos hmax]
    exact ⟨rfl, rfl⟩
  · rw [if_neg (not_lt.2 hmin), if_neg (not_lt.2 hmax)]
    refine ⟨?_, fun h3 => ?_, fun h2 h3 => ?_, fun h1 h2 => ?_, fun h1 => ?_⟩
    · split_ifs <;> rfl
    · rw [if_pos h3]
    · rw [if_neg (not_le.2 h3), if_pos h2]
    · rw [if_neg (not_le.2 (lt_of_lt_of_le h2 (by norm_num))), if_neg (not_le.2 h2), if_pos h1]
    · rw [if_neg (not_le.2 (lt_of_lt_of_le h1 (by norm_num))),
          if_neg (not_le.2 (lt_of_lt_of_le h1 (by norm_num))), if_neg (not_le.2 h1)]

/-- C5 witness: probability 60% at odds +100 gives half-Kelly 10% of
bankroll; under the module's 5% ceiling the output is exactly the ceiling,
5%, with tier "CAPPED". -/
theorem C5_kelly_safety_bounds_witness :
    (calculate_kelly_size defaultKellyConfig 0 60 100).recommended_percentage = 5 ∧
    (calculate_kelly_size defaultKellyConfig 0 60 100).risk_level = "CAPPED" := by
  have h := (C5_kelly_safety_bounds defaultKellyConfig 0 60 100 (by norm_num) 10
    (by norm_num)).2.1 (by norm_num [defaultKellyConfig]) (by norm_num [defaultKellyConfig])
  refine ⟨?_, h.2⟩
  rw [h.1]
  norm_num [pyRound, defaultKellyConfig, round_eq]

end KellyMod

namespace EvCalc

/-- C7: `calculate_sharp_consensus` returns `none` exactly when no
sharp-book quote exists for the market, in which case `calculate_fight_evs`
skips the market entirely (returns no opportunities); otherwise it averages
the sharp books' raw American odds for each outcome with integer truncation
of the mean and vig-removes the two averaged odds. -/
theorem C7_sharp_consensus (book_odds : List (String × ℤ × ℤ)) :
    (book_odds.filter (fun e => decide (e.1 ∈ sharp_books)) = [] →
       calculate_sharp_consensus book_odds = none) ∧
    (book_odds.filter (fun e => decide (e.1 ∈ sharp_books)) ≠ [] →
       calculate_sharp_consensus book_odds =
         some (remove_vig
           (truncQ (((((book_odds.filter (fun e => decide (e.1 ∈ sharp_books))).map
               (fun e => e.2.1) : List ℤ).sum : ℤ) : ℚ) /
             (((book_odds.filter (fun e => decide (e.1 ∈ sharp_books))).map
               (fun e => e.2.1) : List ℤ).length : ℚ)))
           (truncQ (((((book_odds.filter (fun e => decide (e.1 ∈ sharp_books))).map
               (fun e => e.2.2) : List ℤ).sum : ℤ) : ℚ) /
             (((book_odds.filter (fun e => decide (e.1 ∈ sharp_books))).map
               (fun e => e.2.2) : List ℤ).length : ℚ))))) ∧
    (∀ (fight : Fight) (thr : Threshold),
       calculate_sharp_consensus (get_book_odds_for_fight fight) = none →
       calculate_fight_evs fight thr = []) := by
  refine ⟨fun hempty => ?_, fun hne => ?_, fun fight thr hnone => ?_⟩
  · rw [calculate_sharp_consensus]
    simp [hempty]
  · rw [calculate_sharp_consensus]
    simp only [List.map_eq_nil_iff]
    rw [if_neg (by simpa using hne)]
  · rw [calculate_fight_evs]
    by_cases hlen : (get_book_odds_for_fight fight).length < 2
    · rw [if_pos hlen]
    · rw [if_neg hlen, hnone]

end EvCalc

/-- C10: the batch entry point `analyze_all_fights` passes no threshold to
`calculate_fight_evs`, whose default is `'moderate'`: for every list of
fights its result is exactly the sorted concatenation of the per-fight
analyses at threshold `moderate`, an opportunity appears in the batch
result iff it appears in some fight's moderate-threshold analysis, and the
moderate tier's threshold value is 1.0. -/
theorem C10_batch_uses_moderate :
    (∀ fights : List EvCalc.Fight,
       EvCalc.analyze_all_fights fights =
         stableSort EvCalc.evLe (fights.flatMap
           (fun fight => EvCalc.calculate_fight_evs fight EvCalc.Threshold.moderate))) ∧
    (∀ (fights : List EvCalc.Fight) (r : EvCalc.EVResult),
       r ∈ EvCalc.analyze_all_fights fights ↔
         ∃ fight ∈ fights, r ∈ EvCalc.calculate_fight_evs fight EvCalc.Threshold.moderate) ∧
    EvCalc.ev_thresholds EvCalc.Threshold.moderate = 1 := by
  refine ⟨fun fights => rfl, fun fights r => ?_, rfl⟩
  rw [EvCalc.analyze_all_fights, mem_stableSort, List.mem_flatMap]

namespace EvCalc

theorem keys_setKey {β : Type} (l : List (String × β)) (k : String) (v : β) :
    (setKey l k v).map Prod.fst =
      if k ∈ l.map Prod.fst then l.map Prod.fst else l.map Prod.fst ++ [k] := by
  induction l with
  | nil => simp [setKey]
  | cons p t ih =>
    obtain ⟨k', v'⟩ := p
    simp only [setKey]
    by_cases hk : k' = k
    · subst hk
      simp
    · rw [if_neg hk, List.map_cons, List.map_cons, ih]
      by_cases hmem : k ∈ t.map Prod.fst
      · rw [if_pos hmem, if_pos]
        simp [List.mem_cons, hmem]
      · rw [if_neg hmem, if_neg, List.cons_append]
        simp only [List.mem_cons]
        push_neg
        exact ⟨fun h => hk h.symm, hmem⟩

theorem nodup_keys_setKey {β : Type} (l : List (String × β)) (k : String) (v : β)
    (h : (l.map Prod.fst).Nodup) : ((setKey l k v).map Prod.fst).Nodup := by
  rw [keys_setKey]
  split
  · exact h
  · next hmem =>
      refine List.Nodup.append h (List.nodup_singleton k) ?_
      simpa [List.disjoint_singleton] using hmem

theorem nodup_keys_foldl_insertOdds (rows : List FighterOdds) :
    ∀ acc : List (String × List (String × ℤ)), (acc.map Prod.fst).Nodup →
      ((rows.foldl insertOdds acc).map Prod.fst).Nodup := by
  induction rows with
  | nil => intro acc h; simpa using h
  | cons fo t ih =>
    intro acc h
    rw [List.foldl_cons]
    exact ih _ (nodup_keys_setKey _ _ _ h)

theorem keys_complete_sublist (l : List (String × List (String × ℤ)))
    (f1 f2 : String) :
    ((l.filterMap (fun p =>
      match getKey p.2 f1, getKey p.2 f2 with
      | some o1, some o2 => some (p.1, o1, o2)
      | _, _ => none)).map Prod.fst).Sublist (l.map Prod.fst) := by
  induction l with
  | nil => simp
  | cons p t ih =>
    rw [List.filterMap_cons]
    cases h1 : getKey p.2 f1 with
    | none =>
      simp only [h1]
      exact ih.trans (List.sublist_cons_self _ _)
    | some o1 =>
      cases h2 : getKey p.2 f2 with
      | none =>
        simp only [h1, h2]
        exact ih.trans (List.sublist_cons_self _ _)
      | some o2 =>
        simp only [h1, h2, List.map_cons]
        exact ih.cons₂ _

theorem nodup_keys_book_odds (fight : Fight) :
    ((get_book_odds_for_fight fight).map Prod.fst).Nodup := by
  rw [get_book_odds_for_fight]
  exact (keys_complete_sublist _ _ _).nodup
    (nodup_keys_foldl_insertOdds fight.odds_data [] (by simp))

theorem eq_of_mem_nodup_keys {γ : Type} (l : List (String × γ))
    (h : (l.map Prod.fst).Nodup) (k : String) (x y : γ)
    (hx : (k, x) ∈ l) (hy : (k, y) ∈ l) : x = y := by
  induction l with
  | nil => cases hx
  | cons p t ih =>
    rw [List.map_cons, List.nodup_cons] at h
    rcases List.mem_cons.1 hx with hx1 | hx2 <;> rcases List.mem_cons.1 hy with hy1 | hy2
    · rw [← hy1] at hx1
      exact congrArg Prod.snd hx1
    · exact absurd (List.mem_map_of_mem Prod.fst hy2)
        (by rw [← hx1] at h; simpa using h.1)
    · exact absurd (List.mem_map_of_mem Prod.fst hx2)
        (by rw [← hy1] at h; simpa using h.1)
    · exact ih h.2 hx2 hy2

theorem mem_pair_ite {α : Type} (A B : Prop) [Decidable A] [Decidable B]
    (x y r : α) :
    (r ∈ (if A then [x] else []) ++ (if B then [y] else [])) ↔
      ((A ∧ r = x) ∨ (B ∧ r = y)) := by
  split_ifs <;> simp [*]

theorem emitFighter1_book (fight : Fight) (bk : String) (o1 o2 : ℤ) (p : ℚ)
    (n : ℕ) : (emitFighter1 fight bk o1 o2 p n).book = bk := rfl

theorem emitFighter1_fighter (fight : Fight) (bk : String) (o1 o2 : ℤ) (p : ℚ)
    (n : ℕ) : (emitFighter1 fight bk o1 o2 p n).fighter = fight.fighter1 := rfl

theorem emitFighter2_book (fight : Fight) (bk : String) (o1 o2 : ℤ) (p : ℚ)
    (n : ℕ) : (emitFighter2 fight bk o1 o2 p n).book = bk := rfl

theorem emitFighter2_fighter (fight : Fight) (bk : String) (o1 o2 : ℤ) (p : ℚ)
    (n : ℕ) : (emitFighter2 fight bk o1 o2 p n).fighter = fight.fighter2 := rfl

theorem mem_calculate_fight_evs (fight : Fight) (thr : Threshold) (p1 p2 : ℚ)
    (hlen : ¬ (get_book_odds_for_fight fight).length < 2)
    (hcons : calculate_sharp_consensus (get_book_odds_for_fight fight) = some (p1, p2))
    (r : EVResult) :
    r ∈ calculate_fight_evs fight thr ↔
      ∃ e ∈ get_book_odds_for_fight fight, e.1 ∈ square_books ∧
        ((ev_thresholds thr ≤ (p1 - (remove_vig e.2.1 e.2.2).1) * 100 ∧
            r = emitFighter1 fight e.1 e.2.1 e.2.2 p1
              ((get_book_odds_for_fight fight).filter
                (fun x => decide (x.1 ∈ sharp_books))).length) ∨
         (ev_thresholds thr ≤ (p2 - (remove_vig e.2.1 e.2.2).2) * 100 ∧
            r = emitFighter2 fight e.1 e.2.1 e.2.2 p2
              ((get_book_odds_for_fight fight).filter
                (fun x => decide (x.1 ∈ sharp_books))).length)) := by
  rw [calculate_fight_evs]
  simp only [if_neg hlen, hcons]
  rw [mem_stableSort, List.mem_flatMap]
  refine exists_congr fun e => ?_
  constructor
  · rintro ⟨heC, hin⟩
    by_cases hsq : e.1 ∈ square_books
    · rw [if_pos hsq, mem_pair_ite] at hin
      rcases hin with ⟨hA, hr⟩ | ⟨hB, hr⟩
      · exact ⟨heC, hsq, Or.inl ⟨by simpa using hA, hr⟩⟩
      · exact ⟨heC, hsq, Or.inr ⟨by simpa using hB, hr⟩⟩
    · rw [if_neg hsq] at hin
      cases hin
  · rintro ⟨heC, hsq, hcase⟩
    refine ⟨heC, ?_⟩
    rw [if_pos hsq, mem_pair_ite]
    rcases hcase with ⟨hA, hr⟩ | ⟨hB, hr⟩
    · exact Or.inl ⟨by simpa using hA, hr⟩
    · exact Or.inr ⟨by simpa using hB, hr⟩

end EvCalc

namespace EvCalc

/-- C6: the EV Detector's thresholds are conservative 2.0, moderate 1.0 and
aggressive 0.5 percentage points; a market with fewer than two books
quoting both outcomes emits no opportunities at all; and in a market that
is analysed (two or more complete books, consensus `(p1, p2)` available),
the opportunity for a fighter at a book listed among the square books is
emitted iff its edge `(consensus − book probability) × 100` meets or
exceeds the active threshold. -/
theorem C6_opportunity_emission (fight : Fight) (thr : Threshold) :
    (ev_thresholds Threshold.conservative = 2 ∧
     ev_thresholds Threshold.moderate = 1 ∧
     ev_thresholds Threshold.aggressive = 0.5) ∧
    ((get_book_odds_for_fight fight).length < 2 →
       calculate_fight_evs fight thr = []) ∧
    (∀ (b : String) (o1 o2 : ℤ) (p1 p2 : ℚ),
       fight.fighter1 ≠ fight.fighter2 →
       2 ≤ (get_book_odds_for_fight fight).length →
       calculate_sharp_consensus (get_book_odds_for_fight fight) = some (p1, p2) →
       (b, o1, o2) ∈ get_book_odds_for_fight fight →
       ((emitFighter1 fight b o1 o2 p1
           ((get_book_odds_for_fight fight).filter
             (fun x => decide (x.1 ∈ sharp_books))).length ∈
             calculate_fight_evs fight thr ↔
          b ∈ square_books ∧
          ev_thresholds thr ≤ (p1 - (remove_vig o1 o2).1) * 100) ∧
        (emitFighter2 fight b o1 o2 p2
           ((get_book_odds_for_fight fight).filter
             (fun x => decide (x.1 ∈ sharp_books))).length ∈
             calculate_fight_evs fight thr ↔
          b ∈ square_books ∧
          ev_thresholds thr ≤ (p2 - (remove_vig o1 o2).2) * 100))) := by
  refine ⟨⟨rfl, rfl, rfl⟩, fun h => ?_, fun b o1 o2 p1 p2 hne hlen hcons hmem => ?_⟩
  · rw [calculate_fight_evs]
    simp only [if_pos h]
  · have hnlt : ¬ (get_book_odds_for_fight fight).length < 2 := not_lt.2 hlen
    have hnodup := nodup_keys_book_odds fight
    constructor
    · rw [mem_calculate_fight_evs fight thr p1 p2 hnlt hcons]
      constructor
      · rintro ⟨⟨eb, eo1, eo2⟩, heC, hsq, hcase⟩
        rcases hcase with ⟨hA, hr⟩ | ⟨hB, hr⟩
        · have hb : b = eb := by
            have hbk := congrArg EVResult.book hr
            simpa only [emitFighter1_book] using hbk
          subst hb
          have hp : ((o1, o2) : ℤ × ℤ) = (eo1, eo2) :=
            eq_of_mem_nodup_keys _ hnodup b _ _ hmem heC
          cases hp
          exact ⟨hsq, hA⟩
        · have hf := congrArg EVResult.fighter hr
          simp only [emitFighter1_fighter, emitFighter2_fighter] at hf
          exact absurd hf hne
      · rintro ⟨hsq, hev⟩
        exact ⟨(b, o1, o2), hmem, hsq, Or.inl ⟨hev, rfl⟩⟩
    · rw [mem_calculate_fight_evs fight thr p1 p2 hnlt hcons]
      constructor
      · rintro ⟨⟨eb, eo1, eo2⟩, heC, hsq, hcase⟩
        rcases hcase with ⟨hA, hr⟩ | ⟨hB, hr⟩
        · have hf := congrArg EVResult.fighter hr
          simp only [emitFighter1_fighter, emitFighter2_fighter] at hf
          exact absurd hf.symm hne
        · have hb : b = eb := by
            have hbk := congrArg EVResult.book hr
            simpa only [emitFighter2_book] using hbk
          subst hb
          have hp : ((o1, o2) : ℤ × ℤ) = (eo1, eo2) :=
            eq_of_mem_nodup_keys _ hnodup b _ _ hmem heC
          cases hp
          exact ⟨hsq, hB⟩
      · rintro ⟨hsq, hev⟩
        exact ⟨(b, o1, o2), hmem, hsq, Or.inr ⟨hev, rfl⟩⟩

end EvCalc

namespace EvCalc

/-- A concrete fight used to instantiate the EV-detection theorems: the
sharp book Pinnacle quotes Alpha −150 / Beta +130 and the square book
DraftKings quotes −110 / −110. -/
def sampleFight : Fight :=
  { fighter1 := "Alpha", fighter2 := "Beta", event_name := "E",
    event_date := "D", weight_class := "W",
    odds_data := [⟨"Alpha", "Pinnacle", -150⟩, ⟨"Beta", "Pinnacle", 130⟩,
                  ⟨"Alpha", "DraftKings", -110⟩, ⟨"Beta", "DraftKings", -110⟩] }

/-- A concrete fight quoted completely by two square books and by no sharp
book. -/
def noSharpFight : Fight :=
  { fighter1 := "Alpha", fighter2 := "Beta", event_name := "E",
    event_date := "D", weight_class := "W",
    odds_data := [⟨"Alpha", "DraftKings", -110⟩, ⟨"Beta", "DraftKings", -110⟩,
                  ⟨"Alpha", "FanDuel", -105⟩, ⟨"Beta", "FanDuel", -115⟩] }

/-- C7 witness: a market quoted only by DraftKings has no sharp consensus;
a market with sharp quotes (−150, +130) and (−160, +140) averages them to
(−155, +135) and vig-removes the averages; and a fight with two complete
square books but no sharp book is skipped entirely by the EV analysis. -/
theorem C7_sharp_consensus_witness :
    calculate_sharp_consensus [("DraftKings", -110, -110)] = none ∧
    calculate_sharp_consensus
      [("Pinnacle", (-150 : ℤ), (130 : ℤ)), ("BetOnline", -160, 140)] =
      some (remove_vig (-155) 135) ∧
    calculate_fight_evs noSharpFight Threshold.moderate = [] := by
  refine ⟨?_, ?_, ?_⟩
  · exact (C7_sharp_consensus _).1 (by simp [sharp_books])
  · have h := (C7_sharp_consensus
      [("Pinnacle", (-150 : ℤ), (130 : ℤ)), ("BetOnline", -160, 140)]).2.1
      (by simp [sharp_books])
    rw [h]
    norm_num [sharp_books, truncQ]
  · refine (C7_sharp_consensus (get_book_odds_for_fight noSharpFight)).2.2
      noSharpFight Threshold.moderate ?_
    refine (C7_sharp_consensus (get_book_odds_for_fight noSharpFight)).1 ?_
    simp [get_book_odds_for_fight, noSharpFight, insertOdds, setKey, getKey,
      List.foldl, sharp_books]

/-- C6 witness: in `sampleFight` the consensus (from Pinnacle alone) is
(69/119, 50/119) ≈ (58.0%, 42.0%), DraftKings de-vigs to (1/2, 1/2), and
fighter Alpha's edge at DraftKings, ≈ 7.98 points, meets the moderate
threshold, so Alpha's opportunity at DraftKings is emitted. -/
theorem C6_opportunity_emission_witness :
    sampleFight.fighter1 ≠ sampleFight.fighter2 ∧
    2 ≤ (get_book_odds_for_fight sampleFight).length ∧
    calculate_sharp_consensus (get_book_odds_for_fight sampleFight) =
      some (69 / 119, 50 / 119) ∧
    ("DraftKings", (-110 : ℤ), (-110 : ℤ)) ∈ get_book_odds_for_fight sampleFight ∧
    emitFighter1 sampleFight "DraftKings" (-110) (-110) (69 / 119)
        ((get_book_odds_for_fight sampleFight).filter
          (fun x => decide (x.1 ∈ sharp_books))).length ∈
      calculate_fight_evs sampleFight Threshold.moderate := by
  have hne : sampleFight.fighter1 ≠ sampleFight.fighter2 := by simp [sampleFight]
  have hbooks : get_book_odds_for_fight sampleFight =
      [("Pinnacle", -150, 130), ("DraftKings", -110, -110)] := by
    simp [get_book_odds_for_fight, sampleFight, insertOdds, setKey, getKey, List.foldl]
  have hlen : 2 ≤ (get_book_odds_for_fight sampleFight).length := by
    rw [hbooks]
    simp
  have hcons : calculate_sharp_consensus (get_book_odds_for_fight sampleFight) =
      some (69 / 119, 50 / 119) := by
    have h := (C7_sharp_consensus
      [("Pinnacle", (-150 : ℤ), (130 : ℤ)), ("DraftKings", -110, -110)]).2.1
      (by simp [sharp_books])
    rw [hbooks, h]
    have e1 : remove_vig (-150) 130 = (69 / 119, 50 / 119) := by
      norm_num [remove_vig, odds_to_implied_prob]
    simp [sharp_books]
    norm_num [truncQ, e1]
  have hmem : ("DraftKings", (-110 : ℤ), (-110 : ℤ)) ∈
      get_book_odds_for_fight sampleFight := by
    rw [hbooks]
    simp
  have hiff := ((C6_opportunity_emission sampleFight Threshold.moderate).2.2
    "DraftKings" (-110) (-110) (69 / 119) (50 / 119) hne hlen hcons hmem).1
  refine ⟨hne, hlen, hcons, hmem, hiff.mpr ⟨by simp [square_books], ?_⟩⟩
  norm_num [ev_thresholds, remove_vig, odds_to_implied_prob]

end EvCalc
